import Mathlib

/-!
Verification of the statsite metrics sink (statsite.go).

The development shallowly embeds the sink: the submission queue is a Go
channel of strings with capacity 4096 (states: open with buffered
contents, closed with remaining buffered contents, or nil after the
worker exits), pushMetric is the non-blocking select send, the sink
facade formats metric lines, flattenKey/flattenKeyLabels sanitize keys,
and flushMetrics is modelled as a transition system over the states
CONNECT / STREAM / WAIT (backoff) / QUIT with environment events (dial
outcome, queue receive, ticker fire, write and flush outcomes, backoff
timer expiry).

Go channel semantics used by the embedding: a buffered send on a channel
with free space succeeds; a send on a full channel is not ready, so the
select takes its default branch and the line is dropped; a send on a
closed channel is always ready and panics when chosen by select; a send
on a nil channel is never ready, so the select takes its default branch;
a receive on a closed channel first yields the remaining buffered
values, then yields the ok=false closure signal.
-/

namespace Statsite

/-- Capacity of the submission queue; statsite.go line 37: make(chan string, 4096). -/
def queueCapacity : Nat := 4096

/-- Flush interval of the ticker, in milliseconds; statsite.go line 17. -/
def flushIntervalMillis : Nat := 100

/-- Backoff wait after a failure, in seconds; statsite.go line 159. -/
def backoffWaitSeconds : Nat := 5

/-- State of the metricQueue channel: open with its buffered contents,
closed with the values still buffered at close time, or nil (the worker
sets s.metricQueue = nil when it quits). -/
inductive ChanState where
  | opened (buf : List String)
  | closed (buf : List String)
  | nilc
deriving DecidableEq, Repr

/-- Result of running a piece of Go code that can panic at runtime. -/
inductive GoResult (α : Type) where
  | ok (val : α)
  | panicked
deriving DecidableEq, Repr

/-- Buffered contents of the channel in either live state. -/
def ChanState.buf : ChanState → List String
  | .opened b => b
  | .closed b => b
  | .nilc => []

/-- Whether the channel is still open. -/
def ChanState.isOpen : ChanState → Bool
  | .opened _ => true
  | _ => false

/-- pushMetric, statsite.go lines 107-112: select with a send on
s.metricQueue and a default branch.  On an open channel with free space
the send succeeds; on an open full channel the default branch drops the
line; on a closed channel the send case is ready and panics; on a nil
channel the send is never ready, so the default branch drops the line. -/
def pushMetric (q : ChanState) (m : String) : GoResult ChanState :=
  match q with
  | .opened buf =>
      if buf.length < queueCapacity then .ok (.opened (buf ++ [m])) else .ok (.opened buf)
  | .closed _ => .panicked
  | .nilc => .ok .nilc

/-- Shutdown, statsite.go lines 44-46: close(s.metricQueue).  Closing an
already-closed or nil channel panics. -/
def Shutdown (q : ChanState) : GoResult ChanState :=
  match q with
  | .opened buf => .ok (.closed buf)
  | _ => .panicked

/-- Modelled from the spec: the Label type (declared outside src/, in the
package root) carries a name and a value; the key formatter uses only the
value ("append each label's value as an extra trailing segment"). -/
structure Label where
  name : String
  value : String
deriving DecidableEq, Repr

/-- Go strings.Join(elems, sep): the elements separated by sep. -/
def stringsJoin (elems : List String) (sep : String) : String :=
  match elems with
  | [] => ""
  | [x] => x
  | x :: y :: xs => x ++ sep ++ stringsJoin (y :: xs) sep

/-- Go strings.Map(mapping, s): mapping applied to every rune of s. -/
def stringsMap (f : Char → Char) (s : String) : String :=
  ⟨s.data.map f⟩

/-- The rune mapping of flattenKey, statsite.go lines 86-95: ':' and ' '
become '_' (the ':' case falls through to the ' ' case), everything else
is returned unchanged. -/
def statsiteRuneMap (r : Char) : Char :=
  match r with
  | ':' => '_'
  | ' ' => '_'
  | r => r

/-- flattenKey, statsite.go lines 84-96: join the parts with "." and
apply the rune mapping to the joined string. -/
def flattenKey (parts : List String) : String :=
  stringsMap statsiteRuneMap (stringsJoin parts ".")

/-- flattenKeyLabels, statsite.go lines 99-104: append label.Value for
each label to parts (a Go range-append loop, modelled as a fold), then
flattenKey. -/
def flattenKeyLabels (parts : List String) (labels : List Label) : String :=
  flattenKey (labels.foldl (fun ps label => ps ++ [label.value]) parts)

/-- SetGauge, statsite.go lines 48-51: push fmt.Sprintf of the flat key,
':', the rendered value and the "|g" suffix.  The %f rendering of the
float32 value is not shallowly embeddable (floating point); the operation
is modelled over the rendered value string valStr. -/
def SetGauge (q : ChanState) (key : List String) (valStr : String) : GoResult ChanState :=
  pushMetric q (flattenKey key ++ ":" ++ valStr ++ "|g\n")

/-- SetGaugeWithLabels, statsite.go lines 53-56. -/
def SetGaugeWithLabels (q : ChanState) (key : List String) (valStr : String)
    (labels : List Label) : GoResult ChanState :=
  pushMetric q (flattenKeyLabels key labels ++ ":" ++ valStr ++ "|g\n")

/-- EmitKey, statsite.go lines 58-61. -/
def EmitKey (q : ChanState) (key : List String) (valStr : String) : GoResult ChanState :=
  pushMetric q (flattenKey key ++ ":" ++ valStr ++ "|kv\n")

/-- IncrCounter, statsite.go lines 63-66. -/
def IncrCounter (q : ChanState) (key : List String) (valStr : String) : GoResult ChanState :=
  pushMetric q (flattenKey key ++ ":" ++ valStr ++ "|c\n")

/-- IncrCounterWithLabels, statsite.go lines 68-71. -/
def IncrCounterWithLabels (q : ChanState) (key : List String) (valStr : String)
    (labels : List Label) : GoResult ChanState :=
  pushMetric q (flattenKeyLabels key labels ++ ":" ++ valStr ++ "|c\n")

/-- AddSample, statsite.go lines 73-76. -/
def AddSample (q : ChanState) (key : List String) (valStr : String) : GoResult ChanState :=
  pushMetric q (flattenKey key ++ ":" ++ valStr ++ "|ms\n")

/-- AddSampleWithLabels, statsite.go lines 78-81. -/
def AddSampleWithLabels (q : ChanState) (key : List String) (valStr : String)
    (labels : List Label) : GoResult ChanState :=
  pushMetric q (flattenKeyLabels key labels ++ ":" ++ valStr ++ "|ms\n")

/-- The Key Formatter contract as the spec states it: a character is
replaced by an underscore exactly when it is a space or a colon. -/
def specSanitize (c : Char) : Char :=
  if c = ' ' ∨ c = ':' then '_' else c

/-- The Key Formatter contract as the spec states it: append the label
values as extra trailing segments after the base segments, join all
segments with ".", then replace every space and colon of the joined
string with an underscore, leaving other characters unchanged. -/
def specFlatten (segs : List String) (labelVals : List String) : String :=
  ⟨(String.intercalate "." (segs ++ labelVals)).data.map specSanitize⟩

/-- The metric line format as the spec states it: key, ':', rendered
value, '|', the metric-kind suffix, newline. -/
def specMetricLine (key valStr suffix : String) : String :=
  key ++ ":" ++ valStr ++ "|" ++ suffix ++ "\n"

/-- Control location of the flushMetrics goroutine, statsite.go lines
115-173: the CONNECT label, the STREAM select loop (carrying the id of
the live connection), the WAIT drain loop, and the QUIT label.  Each
successful net.Dial yields a fresh connection, numbered by a counter. -/
inductive WorkerPhase where
  | connect
  | stream (conn : Nat)
  | backoff
  | quit
deriving DecidableEq, Repr

/-- Whether the worker is in the STREAM loop. -/
def WorkerPhase.isStream : WorkerPhase → Bool
  | .stream _ => true
  | _ => false

/-- The three log.Printf error sites of flushMetrics: dial failure (line
127), write failure (line 146), flush failure (line 151). -/
inductive LogEvent where
  | connectErr
  | writeErr
  | flushErr
deriving DecidableEq, Repr

/-- Environment events driving one step of the system: a producer calls
pushMetric; a producer calls Shutdown; net.Dial returns (ok?); the STREAM
select takes the queue case (with the outcome of the buffered.Write that
follows a successful receive); the STREAM select takes the ticker case
(with the outcome of buffered.Flush); the WAIT select takes the queue
case; the WAIT select takes the expiry of the 5 second timer. -/
inductive Ev where
  | push (m : String)
  | shutdown
  | dial (ok : Bool)
  | recv (writeOk : Bool)
  | tick (flushOk : Bool)
  | brecv
  | bwait
deriving DecidableEq, Repr

/-- Whether the event is the STREAM-side queue receive. -/
def Ev.isRecv : Ev → Bool
  | .recv _ => true
  | _ => false

/-- Global state: the channel, the history of successfully enqueued lines
(ghost, for the ordering statements), the worker phase, the counter
handing out fresh connection ids, the unflushed contents of the bufio
write buffer of the current connection, the lines flushed to the network
tagged with the connection they went out on (ghost history), the log
events emitted so far (ghost history), and whether some goroutine
panicked. -/
structure Sys where
  chan : ChanState
  pushed : List String
  worker : WorkerPhase
  nextConn : Nat
  buffer : List String
  sent : List (Nat × String)
  logs : List LogEvent
  panicked : Bool
deriving DecidableEq, Repr

/-- A producer runs pushMetric (statsite.go lines 107-112): append on an
open non-full channel, drop on an open full channel, panic on a closed
channel, drop on a nil channel. -/
def stepPush (s : Sys) (m : String) : Sys :=
  match s.chan with
  | .opened b =>
      if b.length < queueCapacity then
        { s with chan := .opened (b ++ [m]), pushed := s.pushed ++ [m] }
      else s
  | .closed _ => { s with panicked := true }
  | .nilc => s

/-- A producer runs Shutdown (statsite.go lines 44-46): close the
channel; closing a closed or nil channel panics. -/
def stepShutdown (s : Sys) : Sys :=
  match s.chan with
  | .opened b => { s with chan := .closed b }
  | _ => { s with panicked := true }

/-- CONNECT (statsite.go lines 123-133): net.Dial succeeds, giving a
fresh connection wrapped in a fresh empty bufio writer, and the worker
enters the STREAM loop; or it fails, the error is logged and the worker
falls through to WAIT. -/
def stepDial (s : Sys) (ok : Bool) : Sys :=
  match s.worker with
  | .connect =>
      if ok then
        { s with worker := .stream s.nextConn, nextConn := s.nextConn + 1, buffer := [] }
      else
        { s with worker := .backoff, logs := s.logs ++ [.connectErr] }
  | _ => s

/-- STREAM queue case (statsite.go lines 137-148): receive from the
channel.  A buffered value (the channel open or closed) is taken from the
head; buffered.Write appends it to the write buffer, or fails, in which
case the error is logged, the line is lost and the worker goes to WAIT.
A receive on a closed drained channel returns ok=false and the worker
goes to QUIT, setting s.metricQueue = nil (line 172).  A receive on an
open empty channel would block, so the select never chooses it: no-op. -/
def stepRecv (s : Sys) (writeOk : Bool) : Sys :=
  match s.worker with
  | .stream _ =>
      match s.chan with
      | .opened (m :: rest) =>
          if writeOk then { s with chan := .opened rest, buffer := s.buffer ++ [m] }
          else { s with chan := .opened rest, worker := .backoff, logs := s.logs ++ [.writeErr] }
      | .closed (m :: rest) =>
          if writeOk then { s with chan := .closed rest, buffer := s.buffer ++ [m] }
          else { s with chan := .closed rest, worker := .backoff, logs := s.logs ++ [.writeErr] }
      | .closed [] => { s with worker := .quit, chan := .nilc }
      | .opened [] => s
      | .nilc => s
  | _ => s

/-- STREAM ticker case (statsite.go lines 149-153): buffered.Flush moves
the buffered lines onto the current connection, or fails, in which case
the error is logged and the worker goes to WAIT. -/
def stepTick (s : Sys) (flushOk : Bool) : Sys :=
  match s.worker with
  | .stream c =>
      if flushOk then
        { s with sent := s.sent ++ s.buffer.map (fun m => (c, m)), buffer := [] }
      else
        { s with worker := .backoff, logs := s.logs ++ [.flushErr] }
  | _ => s

/-- WAIT queue case (statsite.go lines 162-166): a buffered value is
received and discarded; a receive on the closed drained channel returns
ok=false and the worker goes to QUIT (line 172). -/
def stepBrecv (s : Sys) : Sys :=
  match s.worker with
  | .backoff =>
      match s.chan with
      | .opened (_ :: rest) => { s with chan := .opened rest }
      | .closed (_ :: rest) => { s with chan := .closed rest }
      | .closed [] => { s with worker := .quit, chan := .nilc }
      | _ => s
  | _ => s

/-- WAIT timer case (statsite.go lines 167-168): the 5 second timer
fires and the worker jumps back to CONNECT. -/
def stepBwait (s : Sys) : Sys :=
  match s.worker with
  | .backoff => { s with worker := .connect }
  | _ => s

/-- One interleaved step of the system.  After a panic the program is
dead and no further step changes the state. -/
def Sys.step (s : Sys) (e : Ev) : Sys :=
  if s.panicked then s
  else
    match e with
    | .push m => stepPush s m
    | .shutdown => stepShutdown s
    | .dial ok => stepDial s ok
    | .recv writeOk => stepRecv s writeOk
    | .tick flushOk => stepTick s flushOk
    | .brecv => stepBrecv s
    | .bwait => stepBwait s

/-- Run a sequence of events. -/
def Sys.run (s : Sys) (evs : List Ev) : Sys :=
  evs.foldl Sys.step s

/-- NewStatsiteSink, statsite.go lines 34-41: an empty open channel of
capacity 4096 and the worker goroutine started at CONNECT. -/
def initSys : Sys :=
  { chan := .opened []
    pushed := []
    worker := .connect
    nextConn := 0
    buffer := []
    sent := []
    logs := []
    panicked := false }

/-- The lines flushed to the network so far, in order. -/
def sentLines (s : Sys) : List String :=
  s.sent.map Prod.snd

/-! ### Key formatter lemmas -/

/-- Tail of a dot-join: a leading separator before every element. -/
def sepSuffix : List String → String
  | [] => ""
  | a :: as => "." ++ a ++ sepSuffix as

lemma intercalate_go_dot (as : List String) :
    ∀ acc : String, String.intercalate.go acc "." as = acc ++ sepSuffix as := by
  induction as with
  | nil => intro acc; simp [String.intercalate.go, sepSuffix, String.append_empty]
  | cons a as ih =>
      intro acc
      have h1 : String.intercalate.go acc "." (a :: as)
          = String.intercalate.go (acc ++ "." ++ a) "." as := rfl
      rw [h1, ih (acc ++ "." ++ a)]
      simp [sepSuffix, String.append_assoc]

lemma stringsJoin_dot_eq_intercalate (parts : List String) :
    stringsJoin parts "." = String.intercalate "." parts := by
  match parts with
  | [] => rfl
  | a :: as =>
      show stringsJoin (a :: as) "." = String.intercalate.go a "." as
      rw [intercalate_go_dot as a]
      induction as generalizing a with
      | nil => simp [stringsJoin, sepSuffix, String.append_empty]
      | cons b bs ih =>
          simp only [stringsJoin, sepSuffix, ih b, String.append_assoc]

lemma foldl_label_append (labels : List Label) :
    ∀ parts : List String,
      labels.foldl (fun ps label => ps ++ [label.value]) parts
        = parts ++ labels.map Label.value := by
  induction labels with
  | nil => intro parts; simp
  | cons l ls ih => intro parts; simp [List.foldl_cons, ih]

lemma statsiteRuneMap_eq_specSanitize : statsiteRuneMap = specSanitize := by
  funext c
  simp only [statsiteRuneMap, specSanitize]
  split
  · simp
  · simp
  · rename_i h1 h2
    rw [if_neg]
    rintro (h | h)
    · exact h2 h
    · exact h1 h

lemma flattenKey_eq_specFlatten (segs : List String) :
    flattenKey segs = specFlatten segs [] := by
  simp only [flattenKey, specFlatten, stringsMap, statsiteRuneMap_eq_specSanitize,
    stringsJoin_dot_eq_intercalate, List.append_nil]

/-! ### Metric line format lemmas -/

lemma pushMetric_line_eq (q : ChanState) {a b : String} (h : a = b) :
    pushMetric q a = pushMetric q b := by rw [h]

/-! ### Per-step field effects -/

lemma stepPush_worker (s : Sys) (m : String) : (stepPush s m).worker = s.worker := by
  unfold stepPush; split <;> (try split) <;> rfl

lemma stepPush_sent (s : Sys) (m : String) : (stepPush s m).sent = s.sent := by
  unfold stepPush; split <;> (try split) <;> rfl

lemma stepPush_buffer (s : Sys) (m : String) : (stepPush s m).buffer = s.buffer := by
  unfold stepPush; split <;> (try split) <;> rfl

lemma stepPush_nextConn (s : Sys) (m : String) : (stepPush s m).nextConn = s.nextConn := by
  unfold stepPush; split <;> (try split) <;> rfl

lemma stepPush_not_open (s : Sys) (m : String) (h : s.chan.isOpen = false) :
    (stepPush s m).chan = s.chan ∧ (stepPush s m).pushed = s.pushed := by
  unfold stepPush
  split
  · rename_i b heq; rw [heq] at h; simp [ChanState.isOpen] at h
  · exact ⟨rfl, rfl⟩
  · exact ⟨rfl, rfl⟩

lemma stepShutdown_worker (s : Sys) : (stepShutdown s).worker = s.worker := by
  unfold stepShutdown; split <;> rfl

lemma stepShutdown_pushed (s : Sys) : (stepShutdown s).pushed = s.pushed := by
  unfold stepShutdown; split <;> rfl

lemma stepShutdown_sent (s : Sys) : (stepShutdown s).sent = s.sent := by
  unfold stepShutdown; split <;> rfl

lemma stepShutdown_buffer (s : Sys) : (stepShutdown s).buffer = s.buffer := by
  unfold stepShutdown; split <;> rfl

lemma stepShutdown_nextConn (s : Sys) : (stepShutdown s).nextConn = s.nextConn := by
  unfold stepShutdown; split <;> rfl

lemma stepShutdown_not_open (s : Sys) (h : s.chan.isOpen = false) :
    (stepShutdown s).chan = s.chan := by
  unfold stepShutdown
  split
  · rename_i b heq; rw [heq] at h; simp [ChanState.isOpen] at h
  · rfl

lemma stepDial_chan (s : Sys) (ok : Bool) : (stepDial s ok).chan = s.chan := by
  unfold stepDial; split <;> (try split) <;> rfl

lemma stepDial_pushed (s : Sys) (ok : Bool) : (stepDial s ok).pushed = s.pushed := by
  unfold stepDial; split <;> (try split) <;> rfl

lemma stepDial_sent (s : Sys) (ok : Bool) : (stepDial s ok).sent = s.sent := by
  unfold stepDial; split <;> (try split) <;> rfl

lemma stepDial_not_connect (s : Sys) (ok : Bool) (h : s.worker ≠ WorkerPhase.connect) :
    stepDial s ok = s := by
  unfold stepDial
  split
  · rename_i heq; exact absurd heq h
  · rfl

lemma stepDial_nextConn_le (s : Sys) (ok : Bool) : s.nextConn ≤ (stepDial s ok).nextConn := by
  unfold stepDial
  split
  · split
    · exact Nat.le_succ _
    · exact Nat.le_refl _
  · exact Nat.le_refl _

lemma stepRecv_pushed (s : Sys) (w : Bool) : (stepRecv s w).pushed = s.pushed := by
  unfold stepRecv; split <;> (try split) <;> (try split) <;> rfl

lemma stepRecv_sent (s : Sys) (w : Bool) : (stepRecv s w).sent = s.sent := by
  unfold stepRecv; split <;> (try split) <;> (try split) <;> rfl

lemma stepRecv_nextConn (s : Sys) (w : Bool) : (stepRecv s w).nextConn = s.nextConn := by
  unfold stepRecv; split <;> (try split) <;> (try split) <;> rfl

lemma stepRecv_not_stream (s : Sys) (w : Bool) (h : s.worker.isStream = false) :
    stepRecv s w = s := by
  unfold stepRecv
  split
  · rename_i c heq; rw [heq] at h; simp [WorkerPhase.isStream] at h
  · rfl

lemma stepRecv_not_open (s : Sys) (w : Bool) (h : s.chan.isOpen = false) :
    (stepRecv s w).chan.isOpen = false := by
  unfold stepRecv
  split
  · split
    · rename_i heq; rw [heq] at h; simp [ChanState.isOpen] at h
    · split <;> simp [ChanState.isOpen]
    · simp [ChanState.isOpen]
    · rename_i heq; rw [heq] at h; simp [ChanState.isOpen] at h
    · exact h
  · exact h

lemma stepTick_chan (s : Sys) (f : Bool) : (stepTick s f).chan = s.chan := by
  unfold stepTick; split <;> (try split) <;> rfl

lemma stepTick_pushed (s : Sys) (f : Bool) : (stepTick s f).pushed = s.pushed := by
  unfold stepTick; split <;> (try split) <;> rfl

lemma stepTick_nextConn (s : Sys) (f : Bool) : (stepTick s f).nextConn = s.nextConn := by
  unfold stepTick; split <;> (try split) <;> rfl

lemma stepTick_not_stream (s : Sys) (f : Bool) (h : s.worker.isStream = false) :
    stepTick s f = s := by
  unfold stepTick
  split
  · rename_i c heq; rw [heq] at h; simp [WorkerPhase.isStream] at h
  · rfl

lemma stepTick_false_sent (s : Sys) : (stepTick s false).sent = s.sent := by
  unfold stepTick; split <;> simp

lemma stepBrecv_pushed (s : Sys) : (stepBrecv s).pushed = s.pushed := by
  unfold stepBrecv; split <;> (try split) <;> rfl

lemma stepBrecv_buffer (s : Sys) : (stepBrecv s).buffer = s.buffer := by
  unfold stepBrecv; split <;> (try split) <;> rfl

lemma stepBrecv_sent (s : Sys) : (stepBrecv s).sent = s.sent := by
  unfold stepBrecv; split <;> (try split) <;> rfl

lemma stepBrecv_nextConn (s : Sys) : (stepBrecv s).nextConn = s.nextConn := by
  unfold stepBrecv; split <;> (try split) <;> rfl

lemma stepBrecv_not_backoff (s : Sys) (h : s.worker ≠ WorkerPhase.backoff) :
    stepBrecv s = s := by
  unfold stepBrecv
  split
  · rename_i heq; exact absurd heq h
  · rfl

lemma stepBrecv_not_open (s : Sys) (h : s.chan.isOpen = false) :
    (stepBrecv s).chan.isOpen = false := by
  unfold stepBrecv
  split
  · split
    · rename_i heq; rw [heq] at h; simp [ChanState.isOpen] at h
    · simp [ChanState.isOpen]
    · simp [ChanState.isOpen]
    · exact h
  · exact h

lemma stepBwait_eq (s : Sys) :
    stepBwait s = if s.worker = WorkerPhase.backoff then { s with worker := .connect } else s := by
  unfold stepBwait
  split
  · rename_i heq; rw [if_pos heq]
  · rename_i hne
    rw [if_neg]
    intro hcontra
    exact hne hcontra

/-! ### Composite step lemmas -/

lemma step_panicked_def (s : Sys) (e : Ev) (hp : s.panicked = true) : s.step e = s := by
  unfold Sys.step; rw [hp]; rfl

lemma step_push_def (s : Sys) (m : String) (hp : s.panicked = false) :
    s.step (Ev.push m) = stepPush s m := by
  unfold Sys.step; rw [hp]; rfl

lemma step_shutdown_def (s : Sys) (hp : s.panicked = false) :
    s.step Ev.shutdown = stepShutdown s := by
  unfold Sys.step; rw [hp]; rfl

lemma step_dial_def (s : Sys) (ok : Bool) (hp : s.panicked = false) :
    s.step (Ev.dial ok) = stepDial s ok := by
  unfold Sys.step; rw [hp]; rfl

lemma step_recv_def (s : Sys) (w : Bool) (hp : s.panicked = false) :
    s.step (Ev.recv w) = stepRecv s w := by
  unfold Sys.step; rw [hp]; rfl

lemma step_tick_def (s : Sys) (f : Bool) (hp : s.panicked = false) :
    s.step (Ev.tick f) = stepTick s f := by
  unfold Sys.step; rw [hp]; rfl

lemma step_brecv_def (s : Sys) (hp : s.panicked = false) : s.step Ev.brecv = stepBrecv s := by
  unfold Sys.step; rw [hp]; rfl

lemma step_bwait_def (s : Sys) (hp : s.panicked = false) : s.step Ev.bwait = stepBwait s := by
  unfold Sys.step; rw [hp]; rfl

lemma step_quit_absorbing (s : Sys) (e : Ev) (h : s.worker = WorkerPhase.quit) :
    (s.step e).worker = WorkerPhase.quit ∧ (s.step e).sent = s.sent := by
  cases hpb : s.panicked with
  | true => rw [step_panicked_def s e hpb]; exact ⟨h, rfl⟩
  | false =>
    cases e with
    | push m => rw [step_push_def s m hpb]; exact ⟨(stepPush_worker s m).trans h, stepPush_sent s m⟩
    | shutdown =>
        rw [step_shutdown_def s hpb]
        exact ⟨(stepShutdown_worker s).trans h, stepShutdown_sent s⟩
    | dial ok =>
        rw [step_dial_def s ok hpb, stepDial_not_connect s ok (by rw [h]; decide)]
        exact ⟨h, rfl⟩
    | recv w =>
        rw [step_recv_def s w hpb, stepRecv_not_stream s w (by rw [h]; rfl)]
        exact ⟨h, rfl⟩
    | tick f =>
        rw [step_tick_def s f hpb, stepTick_not_stream s f (by rw [h]; rfl)]
        exact ⟨h, rfl⟩
    | brecv =>
        rw [step_brecv_def s hpb, stepBrecv_not_backoff s (by rw [h]; decide)]
        exact ⟨h, rfl⟩
    | bwait =>
        rw [step_bwait_def s hpb, stepBwait_eq, if_neg (by rw [h]; decide)]
        exact ⟨h, rfl⟩

lemma run_quit_absorbing (evs : List Ev) :
    ∀ s : Sys, s.worker = WorkerPhase.quit →
      (Sys.run s evs).worker = WorkerPhase.quit ∧ (Sys.run s evs).sent = s.sent := by
  induction evs with
  | nil => intro s h; exact ⟨h, rfl⟩
  | cons e evs ih =>
      intro s h
      obtain ⟨h1, h2⟩ := step_quit_absorbing s e h
      obtain ⟨h3, h4⟩ := ih (s.step e) h1
      exact ⟨h3, h4.trans h2⟩

lemma step_sent_ne_tick (s : Sys) (e : Ev) (h : (s.step e).sent ≠ s.sent) : e = Ev.tick true := by
  cases hpb : s.panicked with
  | true => rw [step_panicked_def s e hpb] at h; exact absurd rfl h
  | false =>
    cases e with
    | push m => rw [step_push_def s m hpb] at h; exact absurd (stepPush_sent s m) h
    | shutdown => rw [step_shutdown_def s hpb] at h; exact absurd (stepShutdown_sent s) h
    | dial ok => rw [step_dial_def s ok hpb] at h; exact absurd (stepDial_sent s ok) h
    | recv w => rw [step_recv_def s w hpb] at h; exact absurd (stepRecv_sent s w) h
    | tick f =>
        cases f with
        | false => rw [step_tick_def s false hpb] at h; exact absurd (stepTick_false_sent s) h
        | true => rfl
    | brecv => rw [step_brecv_def s hpb] at h; exact absurd (stepBrecv_sent s) h
    | bwait =>
        rw [step_bwait_def s hpb, stepBwait_eq] at h
        split at h <;> exact absurd rfl h

lemma step_closed_frozen (s : Sys) (e : Ev) (h : s.chan.isOpen = false) :
    (s.step e).chan.isOpen = false ∧ (s.step e).pushed = s.pushed := by
  cases hpb : s.panicked with
  | true => rw [step_panicked_def s e hpb]; exact ⟨h, rfl⟩
  | false =>
    cases e with
    | push m =>
        rw [step_push_def s m hpb]
        obtain ⟨h1, h2⟩ := stepPush_not_open s m h
        exact ⟨by rw [h1]; exact h, h2⟩
    | shutdown =>
        rw [step_shutdown_def s hpb]
        exact ⟨by rw [stepShutdown_not_open s h]; exact h, stepShutdown_pushed s⟩
    | dial ok =>
        rw [step_dial_def s ok hpb]
        exact ⟨by rw [stepDial_chan s ok]; exact h, stepDial_pushed s ok⟩
    | recv w =>
        rw [step_recv_def s w hpb]
        exact ⟨stepRecv_not_open s w h, stepRecv_pushed s w⟩
    | tick f =>
        rw [step_tick_def s f hpb]
        exact ⟨by rw [stepTick_chan s f]; exact h, stepTick_pushed s f⟩
    | brecv =>
        rw [step_brecv_def s hpb]
        exact ⟨stepBrecv_not_open s h, stepBrecv_pushed s⟩
    | bwait =>
        rw [step_bwait_def s hpb, stepBwait_eq]
        split <;> exact ⟨h, rfl⟩

lemma run_closed_frozen (evs : List Ev) :
    ∀ s : Sys, s.chan.isOpen = false →
      (Sys.run s evs).chan.isOpen = false ∧ (Sys.run s evs).pushed = s.pushed := by
  induction evs with
  | nil => intro s h; exact ⟨h, rfl⟩
  | cons e evs ih =>
      intro s h
      obtain ⟨h1, h2⟩ := step_closed_frozen s e h
      obtain ⟨h3, h4⟩ := ih (s.step e) h1
      exact ⟨h3, h4.trans h2⟩

lemma step_nextConn_le (s : Sys) (e : Ev) : s.nextConn ≤ (s.step e).nextConn := by
  cases hpb : s.panicked with
  | true => rw [step_panicked_def s e hpb]
  | false =>
    cases e with
    | push m => rw [step_push_def s m hpb, stepPush_nextConn]
    | shutdown => rw [step_shutdown_def s hpb, stepShutdown_nextConn]
    | dial ok => rw [step_dial_def s ok hpb]; exact stepDial_nextConn_le s ok
    | recv w => rw [step_recv_def s w hpb, stepRecv_nextConn]
    | tick f => rw [step_tick_def s f hpb, stepTick_nextConn]
    | brecv => rw [step_brecv_def s hpb, stepBrecv_nextConn]
    | bwait => rw [step_bwait_def s hpb, stepBwait_eq]; split <;> exact Nat.le_refl _

lemma step_stream_source (s : Sys) (e : Ev) (c0 : Nat)
    (h : (s.step e).worker = WorkerPhase.stream c0) :
    s.worker = WorkerPhase.stream c0 ∨
      (s.worker = WorkerPhase.connect ∧ c0 = s.nextConn) := by
  cases hpb : s.panicked with
  | true => rw [step_panicked_def s e hpb] at h; exact Or.inl h
  | false =>
    cases e with
    | push m =>
        rw [step_push_def s m hpb] at h
        exact Or.inl ((stepPush_worker s m).symm.trans h)
    | shutdown =>
        rw [step_shutdown_def s hpb] at h
        exact Or.inl ((stepShutdown_worker s).symm.trans h)
    | dial ok =>
        rw [step_dial_def s ok hpb] at h
        unfold stepDial at h
        split at h
        · rename_i heq
          split at h
          · injection h with h2
            exact Or.inr ⟨heq, h2.symm⟩
          · simp at h
        · exact Or.inl h
    | recv w =>
        rw [step_recv_def s w hpb] at h
        unfold stepRecv at h
        split at h
        · split at h <;> (try split at h) <;> first | exact Or.inl h | simp at h
        · exact Or.inl h
    | tick f =>
        rw [step_tick_def s f hpb] at h
        unfold stepTick at h
        split at h
        · split at h
          · exact Or.inl h
          · simp at h
        · exact Or.inl h
    | brecv =>
        rw [step_brecv_def s hpb] at h
        unfold stepBrecv at h
        split at h
        · split at h <;> first | exact Or.inl h | simp at h
        · exact Or.inl h
    | bwait =>
        rw [step_bwait_def s hpb, stepBwait_eq] at h
        split at h
        · simp at h
        · exact Or.inl h

/-- A connection id is dead: it is in the past of the fresh-id counter
and the worker is not streaming on it.  Once dead, always dead, and no
line is ever flushed onto it again. -/
def DeadConn (s : Sys) (c : Nat) : Prop :=
  c < s.nextConn ∧ ∀ c0 : Nat, s.worker = WorkerPhase.stream c0 → c0 ≠ c

lemma step_deadConn (s : Sys) (e : Ev) (c : Nat) (h : DeadConn s c) : DeadConn (s.step e) c := by
  refine ⟨Nat.lt_of_lt_of_le h.1 (step_nextConn_le s e), ?_⟩
  intro c0 hc0
  rcases step_stream_source s e c0 hc0 with h1 | ⟨_, h2⟩
  · exact h.2 c0 h1
  · rw [h2]
    exact (Nat.ne_of_lt h.1).symm

lemma step_sent_dead (s : Sys) (e : Ev) (c : Nat) (hd : DeadConn s c) (l : String)
    (hmem : (c, l) ∈ (s.step e).sent) : (c, l) ∈ s.sent := by
  by_cases hne : (s.step e).sent = s.sent
  · rwa [hne] at hmem
  · have he := step_sent_ne_tick s e hne
    subst he
    cases hpb : s.panicked with
    | true => rwa [step_panicked_def s (Ev.tick true) hpb] at hmem
    | false =>
      rw [step_tick_def s true hpb] at hmem
      unfold stepTick at hmem
      split at hmem
      · rename_i c1 heq
        rw [if_pos rfl] at hmem
        simp only [List.mem_append] at hmem
        rcases hmem with hmem | hmem
        · exact hmem
        · obtain ⟨m, _, heq2⟩ := List.mem_map.mp hmem
          injection heq2 with hc _
          exact absurd hc (hd.2 c1 heq)
      · exact hmem

lemma run_sent_dead (evs : List Ev) :
    ∀ (s : Sys) (c : Nat), DeadConn s c →
      ∀ l : String, (c, l) ∈ (Sys.run s evs).sent → (c, l) ∈ s.sent := by
  induction evs with
  | nil => intro s c _ l h; exact h
  | cons e evs ih =>
      intro s c hd l h
      exact step_sent_dead s e c hd l (ih (s.step e) c (step_deadConn s e c hd) l h)

/-- Ordering invariant: the flushed lines, followed by the unflushed
write buffer, followed by the lines still in the channel, form an
order-preserving subsequence of the successfully enqueued history. -/
def Inv (s : Sys) : Prop :=
  (sentLines s ++ s.buffer ++ s.chan.buf).Sublist s.pushed

lemma step_inv (s : Sys) (e : Ev) (h : Inv s) : Inv (s.step e) := by
  cases hpb : s.panicked with
  | true => rwa [step_panicked_def s e hpb]
  | false =>
    unfold Inv at h
    cases e with
    | push m =>
        rw [step_push_def s m hpb]
        unfold stepPush
        split
        · rename_i b heq
          split
          · rw [heq] at h
            simp only [ChanState.buf] at h
            show (sentLines s ++ s.buffer ++ (b ++ [m])).Sublist (s.pushed ++ [m])
            simpa using h.append (List.Sublist.refl [m])
          · exact h
        · exact h
        · exact h
    | shutdown =>
        rw [step_shutdown_def s hpb]
        unfold stepShutdown
        split
        · rename_i b heq
          rw [heq] at h
          simp only [ChanState.buf] at h
          show (sentLines s ++ s.buffer ++ b).Sublist s.pushed
          exact h
        · exact h
    | dial ok =>
        rw [step_dial_def s ok hpb]
        unfold stepDial
        split
        · split
          · show (sentLines s ++ [] ++ s.chan.buf).Sublist s.pushed
            rw [List.append_assoc] at h
            simp only [List.append_nil]
            exact ((List.sublist_append_right s.buffer s.chan.buf).append_left
              (sentLines s)).trans h
          · exact h
        · exact h
    | recv w =>
        rw [step_recv_def s w hpb]
        unfold stepRecv
        split
        · split
          · rename_i m rest heq
            rw [heq] at h
            simp only [ChanState.buf] at h
            split
            · show (sentLines s ++ (s.buffer ++ [m]) ++ rest).Sublist s.pushed
              simp only [List.append_assoc, List.singleton_append] at h ⊢
              exact h
            · show (sentLines s ++ s.buffer ++ rest).Sublist s.pushed
              exact (((List.sublist_cons_self m rest).append_left
                (sentLines s ++ s.buffer))).trans h
          · rename_i m rest heq
            rw [heq] at h
            simp only [ChanState.buf] at h
            split
            · show (sentLines s ++ (s.buffer ++ [m]) ++ rest).Sublist s.pushed
              simp only [List.append_assoc, List.singleton_append] at h ⊢
              exact h
            · show (sentLines s ++ s.buffer ++ rest).Sublist s.pushed
              exact (((List.sublist_cons_self m rest).append_left
                (sentLines s ++ s.buffer))).trans h
          · rename_i heq
            rw [heq] at h
            simp only [ChanState.buf] at h
            show (sentLines s ++ s.buffer ++ []).Sublist s.pushed
            exact h
          · exact h
          · exact h
        · exact h
    | tick f =>
        rw [step_tick_def s f hpb]
        unfold stepTick
        split
        · rename_i c heq
          split
          · show ((s.sent ++ List.map (fun m => (c, m)) s.buffer).map Prod.snd
              ++ [] ++ s.chan.buf).Sublist s.pushed
            simpa [sentLines, Function.comp] using h
          · exact h
        · exact h
    | brecv =>
        rw [step_brecv_def s hpb]
        unfold stepBrecv
        split
        · split
          · rename_i m rest heq
            rw [heq] at h
            simp only [ChanState.buf] at h
            show (sentLines s ++ s.buffer ++ rest).Sublist s.pushed
            exact (((List.sublist_cons_self m rest).append_left
              (sentLines s ++ s.buffer))).trans h
          · rename_i m rest heq
            rw [heq] at h
            simp only [ChanState.buf] at h
            show (sentLines s ++ s.buffer ++ rest).Sublist s.pushed
            exact (((List.sublist_cons_self m rest).append_left
              (sentLines s ++ s.buffer))).trans h
          · rename_i heq
            rw [heq] at h
            simp only [ChanState.buf] at h
            show (sentLines s ++ s.buffer ++ []).Sublist s.pushed
            exact h
          · exact h
        · exact h
    | bwait =>
        rw [step_bwait_def s hpb, stepBwait_eq]
        split
        · exact h
        · exact h

lemma run_inv (evs : List Ev) : ∀ s : Sys, Inv s → Inv (Sys.run s evs) := by
  induction evs with
  | nil => intro s h; exact h
  | cons e evs ih => intro s h; exact ih (s.step e) (step_inv s e h)

lemma initSys_inv : Inv initSys := by
  unfold Inv initSys sentLines
  simp [ChanState.buf]

lemma inv_sent_sublist (s : Sys) (h : Inv s) : (sentLines s).Sublist s.pushed :=
  ((List.sublist_append_left (sentLines s) s.buffer).trans
    (List.sublist_append_left (sentLines s ++ s.buffer) s.chan.buf)).trans h

/-! ### Claim theorems C1, C2, C7, C8 -/

/-- Claim C1 (code bug): after Shutdown has closed the submission queue,
a pushMetric attempt is NOT a no-op: the select send on the closed
channel panics.  This theorem evaluates the code at the failing input:
Shutdown turns the open queue into a closed one, and every pushMetric
on the closed queue panics instead of dropping the line. -/
theorem push_after_shutdown_panics :
    ∀ (buf : List String) (m : String),
      Shutdown (ChanState.opened buf) = GoResult.ok (ChanState.closed buf) ∧
      pushMetric (ChanState.closed buf) m = GoResult.panicked := by
  intro buf m
  exact ⟨rfl, rfl⟩

/-- Claim C2 (counterexample): the claim quantifies over every queue
state, but on the closed queue, which holds fewer than 4096 entries, the
push panics instead of appending the line at the tail. -/
theorem push_on_closed_queue_is_not_append :
    pushMetric (ChanState.closed []) "svc:1.000000|c\n" = GoResult.panicked ∧
    pushMetric (ChanState.closed []) "svc:1.000000|c\n"
      ≠ GoResult.ok (ChanState.closed ["svc:1.000000|c\n"]) := by
  exact ⟨rfl, by decide⟩

/-- Claim C2 (amended): for every metric line and every state of the
still-open queue, try_push never blocks: with fewer than 4096 buffered
entries the line is appended at the tail, and with exactly 4096 buffered
entries the line is dropped with no error and no change to the queue;
on the nil queue left behind by the worker's exit the push is a silent
drop.  (On a closed queue the push panics; that is claim C1's bug.) -/
theorem try_push_open_queue :
    ∀ (buf : List String) (m : String),
      (buf.length < queueCapacity →
        pushMetric (ChanState.opened buf) m = GoResult.ok (ChanState.opened (buf ++ [m]))) ∧
      (buf.length = queueCapacity →
        pushMetric (ChanState.opened buf) m = GoResult.ok (ChanState.opened buf)) ∧
      pushMetric ChanState.nilc m = GoResult.ok ChanState.nilc := by
  intro buf m
  refine ⟨fun h => ?_, fun h => ?_, rfl⟩
  · simp [pushMetric, h]
  · simp [pushMetric, h]

/-- Witness for try_push_open_queue: a push on the empty queue appends,
a push on a queue holding exactly 4096 entries leaves it unchanged. -/
theorem try_push_open_queue_witness :
    pushMetric (ChanState.opened []) "m" = GoResult.ok (ChanState.opened ["m"]) ∧
    pushMetric (ChanState.opened (List.replicate 4096 "x")) "m"
      = GoResult.ok (ChanState.opened (List.replicate 4096 "x")) :=
  ⟨(try_push_open_queue [] "m").1 (by decide),
   (try_push_open_queue (List.replicate 4096 "x") "m").2.1
     (by rw [List.length_replicate]; rfl)⟩

/-- Claim C7: the key formatter appends each label's value as an extra
trailing segment after the base segments in order, joins all segments
with '.', and replaces every space and colon of the joined string with
'_', leaving other characters unchanged (specFlatten is that contract
verbatim); in particular flattenKey ["a","b c"] is "a.b_c" and
flattenKeyLabels ["svc"] with the single label value "x:y" is
"svc.x_y". -/
theorem flattenKey_matches_spec :
    ∀ (parts : List String) (labels : List Label),
      flattenKeyLabels parts labels = specFlatten parts (labels.map Label.value) ∧
      flattenKey parts = specFlatten parts [] ∧
      flattenKey ["a", "b c"] = "a.b_c" ∧
      flattenKeyLabels ["svc"] [⟨"tag", "x:y"⟩] = "svc.x_y" := by
  intro parts labels
  refine ⟨?_, flattenKey_eq_specFlatten parts, by decide, by decide⟩
  rw [flattenKeyLabels, foldl_label_append labels parts, flattenKey_eq_specFlatten]
  simp [specFlatten]

/-- Claim C8: SetGauge, EmitKey, IncrCounter and AddSample each format
the line key:value|suffix newline with suffixes g, kv, c and ms
respectively (specMetricLine is the spec's format), where key is the
flattened key, and then hand the line to the non-blocking pushMetric;
the operations return nothing but the queue effect - no error reaches
the caller.  The WithLabels variants do the same over the label-extended
key.  The float32 value is represented by its rendered decimal string. -/
theorem facade_formats_and_pushes :
    ∀ (q : ChanState) (key : List String) (valStr : String) (labels : List Label),
      SetGauge q key valStr = pushMetric q (specMetricLine (flattenKey key) valStr "g") ∧
      EmitKey q key valStr = pushMetric q (specMetricLine (flattenKey key) valStr "kv") ∧
      IncrCounter q key valStr = pushMetric q (specMetricLine (flattenKey key) valStr "c") ∧
      AddSample q key valStr = pushMetric q (specMetricLine (flattenKey key) valStr "ms") ∧
      SetGaugeWithLabels q key valStr labels
        = pushMetric q (specMetricLine (flattenKeyLabels key labels) valStr "g") ∧
      IncrCounterWithLabels q key valStr labels
        = pushMetric q (specMetricLine (flattenKeyLabels key labels) valStr "c") ∧
      AddSampleWithLabels q key valStr labels
        = pushMetric q (specMetricLine (flattenKeyLabels key labels) valStr "ms") := by
  intro q key valStr labels
  refine ⟨?_, ?_, ?_, ?_, ?_, ?_, ?_⟩ <;>
    · apply pushMetric_line_eq
      simp only [specMetricLine, String.append_assoc]
      congr 1

/-! ### Claim theorems C3, C4, C5, C6, C9, C10 -/

lemma step_quit_source (s : Sys) (e : Ev)
    (h : (s.step e).worker = WorkerPhase.quit) :
    s.worker = WorkerPhase.quit ∨
      (s.chan = ChanState.closed [] ∧
        ((s.worker.isStream = true ∧ e.isRecv = true) ∨
          (s.worker = WorkerPhase.backoff ∧ e = Ev.brecv))) := by
  cases hpb : s.panicked with
  | true => rw [step_panicked_def s e hpb] at h; exact Or.inl h
  | false =>
    cases e with
    | push m =>
        rw [step_push_def s m hpb] at h
        exact Or.inl ((stepPush_worker s m).symm.trans h)
    | shutdown =>
        rw [step_shutdown_def s hpb] at h
        exact Or.inl ((stepShutdown_worker s).symm.trans h)
    | dial ok =>
        rw [step_dial_def s ok hpb] at h
        unfold stepDial at h
        split at h
        · split at h <;> simp at h
        · exact Or.inl h
    | recv w =>
        rw [step_recv_def s w hpb] at h
        unfold stepRecv at h
        split at h
        · rename_i c1 heqw
          split at h
          · split at h
            · exact Or.inl h
            · simp at h
          · split at h
            · exact Or.inl h
            · simp at h
          · rename_i heqc
            exact Or.inr ⟨heqc, Or.inl ⟨by rw [heqw]; rfl, rfl⟩⟩
          · exact Or.inl h
          · exact Or.inl h
        · exact Or.inl h
    | tick f =>
        rw [step_tick_def s f hpb] at h
        unfold stepTick at h
        split at h
        · split at h
          · exact Or.inl h
          · simp at h
        · exact Or.inl h
    | brecv =>
        rw [step_brecv_def s hpb] at h
        unfold stepBrecv at h
        split at h
        · rename_i heqw
          split at h
          · exact Or.inl h
          · exact Or.inl h
          · rename_i heqc
            exact Or.inr ⟨heqc, Or.inr ⟨heqw, rfl⟩⟩
          · exact Or.inl h
        · exact Or.inl h
    | bwait =>
        rw [step_bwait_def s hpb, stepBwait_eq] at h
        split at h
        · simp at h
        · exact Or.inl h

/-- Sample state: worker streaming on connection 0, queue closed and
drained, one unflushed line in the write buffer. -/
def sysStreamClosed : Sys :=
  { chan := .closed [], pushed := ["a"], worker := .stream 0, nextConn := 1,
    buffer := ["b"], sent := [], logs := [], panicked := false }

/-- Sample state: worker streaming on connection 0, one line queued. -/
def sysStreamOpen : Sys :=
  { chan := .opened ["x"], pushed := ["x"], worker := .stream 0, nextConn := 1,
    buffer := [], sent := [], logs := [], panicked := false }

/-- Sample state: worker in the backoff drain loop, one line queued. -/
def sysBackoff : Sys :=
  { chan := .opened ["x"], pushed := ["x"], worker := .backoff, nextConn := 1,
    buffer := [], sent := [], logs := [], panicked := false }

/-- Sample state: worker in the backoff drain loop, queue closed and drained. -/
def sysBackoffClosed : Sys :=
  { chan := .closed [], pushed := [], worker := .backoff, nextConn := 1,
    buffer := [], sent := [], logs := [], panicked := false }

/-- Sample state: fresh worker about to dial. -/
def sysConnect : Sys :=
  { chan := .opened [], pushed := [], worker := .connect, nextConn := 0,
    buffer := [], sent := [], logs := [], panicked := false }

/-- Sample state: worker already terminated, one line delivered earlier,
one line stranded in the abandoned write buffer. -/
def sysQuit : Sys :=
  { chan := .nilc, pushed := ["a"], worker := .quit, nextConn := 1,
    buffer := ["b"], sent := [(0, "a")], logs := [], panicked := false }

/-- Claim C3: the worker reaches QUIT only by observing the closed,
drained queue, and only from STREAM (via the queue receive) or from the
backoff drain loop (via its queue receive); a dial failure, a write
failure and a flush failure all send the worker to BACKOFF, never to
QUIT. -/
theorem worker_quit_only_on_closed_queue :
    (∀ (s : Sys) (e : Ev), s.worker ≠ WorkerPhase.quit →
      (s.step e).worker = WorkerPhase.quit →
      s.chan = ChanState.closed [] ∧
        ((s.worker.isStream = true ∧ e.isRecv = true) ∨
          (s.worker = WorkerPhase.backoff ∧ e = Ev.brecv))) ∧
    (∀ s : Sys, s.panicked = false → s.worker = WorkerPhase.connect →
      (s.step (Ev.dial false)).worker = WorkerPhase.backoff) ∧
    (∀ (s : Sys) (c : Nat) (m : String) (rest : List String), s.panicked = false →
      s.worker = WorkerPhase.stream c →
      (s.chan = ChanState.opened (m :: rest) ∨ s.chan = ChanState.closed (m :: rest)) →
      (s.step (Ev.recv false)).worker = WorkerPhase.backoff) ∧
    (∀ (s : Sys) (c : Nat), s.panicked = false → s.worker = WorkerPhase.stream c →
      (s.step (Ev.tick false)).worker = WorkerPhase.backoff) := by
  refine ⟨?_, ?_, ?_, ?_⟩
  · intro s e hq h
    rcases step_quit_source s e h with h1 | h2
    · exact absurd h1 hq
    · exact h2
  · intro s hp hw
    rw [step_dial_def s false hp]
    simp [stepDial, hw]
  · intro s c m rest hp hw hc
    rw [step_recv_def s false hp]
    rcases hc with hc | hc <;> simp [stepRecv, hw, hc]
  · intro s c hp hw
    rw [step_tick_def s false hp]
    simp [stepTick, hw]

/-- Witness for worker_quit_only_on_closed_queue at concrete states. -/
theorem worker_quit_only_on_closed_queue_witness :
    (sysStreamClosed.chan = ChanState.closed [] ∧
      ((sysStreamClosed.worker.isStream = true ∧ (Ev.recv true).isRecv = true) ∨
        (sysStreamClosed.worker = WorkerPhase.backoff ∧ Ev.recv true = Ev.brecv))) ∧
    (sysConnect.step (Ev.dial false)).worker = WorkerPhase.backoff ∧
    (sysStreamOpen.step (Ev.recv false)).worker = WorkerPhase.backoff ∧
    (sysStreamOpen.step (Ev.tick false)).worker = WorkerPhase.backoff :=
  ⟨worker_quit_only_on_closed_queue.1 sysStreamClosed (Ev.recv true) (by decide) (by decide),
   worker_quit_only_on_closed_queue.2.1 sysConnect rfl rfl,
   worker_quit_only_on_closed_queue.2.2.1 sysStreamOpen 0 "x" [] rfl rfl (Or.inl rfl),
   worker_quit_only_on_closed_queue.2.2.2 sysStreamOpen 0 rfl rfl⟩

/-- Claim C4: in the backoff drain loop every line that arrives on the
queue is received and discarded - the state changes only by dropping the
head of the queue, so nothing reaches the write buffer or a connection;
when the wait period (the 5 second timer) elapses the worker goes back
to CONNECT; and if the closed queue is drained during the wait the
worker goes to QUIT. -/
theorem backoff_drains_and_transitions :
    backoffWaitSeconds = 5 ∧
    (∀ (s : Sys) (m : String) (rest : List String), s.panicked = false →
      s.worker = WorkerPhase.backoff →
      (s.chan = ChanState.opened (m :: rest) →
        s.step Ev.brecv = { s with chan := ChanState.opened rest }) ∧
      (s.chan = ChanState.closed (m :: rest) →
        s.step Ev.brecv = { s with chan := ChanState.closed rest })) ∧
    (∀ s : Sys, s.panicked = false → s.worker = WorkerPhase.backoff →
      s.step Ev.bwait = { s with worker := WorkerPhase.connect }) ∧
    (∀ s : Sys, s.panicked = false → s.worker = WorkerPhase.backoff →
      s.chan = ChanState.closed [] →
      s.step Ev.brecv = { s with worker := WorkerPhase.quit, chan := ChanState.nilc }) := by
  refine ⟨rfl, ?_, ?_, ?_⟩
  · intro s m rest hp hw
    constructor
    · intro hc
      rw [step_brecv_def s hp]
      simp [stepBrecv, hw, hc]
    · intro hc
      rw [step_brecv_def s hp]
      simp [stepBrecv, hw, hc]
  · intro s hp hw
    rw [step_bwait_def s hp]
    simp [stepBwait, hw]
  · intro s hp hw hc
    rw [step_brecv_def s hp]
    simp [stepBrecv, hw, hc]

/-- Witness for backoff_drains_and_transitions at concrete states. -/
theorem backoff_drains_and_transitions_witness :
    sysBackoff.step Ev.brecv = { sysBackoff with chan := ChanState.opened [] } ∧
    sysBackoff.step Ev.bwait = { sysBackoff with worker := WorkerPhase.connect } ∧
    sysBackoffClosed.step Ev.brecv
      = { sysBackoffClosed with worker := WorkerPhase.quit, chan := ChanState.nilc } :=
  ⟨(backoff_drains_and_transitions.2.1 sysBackoff "x" [] rfl rfl).1 rfl,
   backoff_drains_and_transitions.2.2.1 sysBackoff rfl rfl,
   backoff_drains_and_transitions.2.2.2 sysBackoffClosed rfl rfl rfl⟩

/-- Claim C5: when the write of a dequeued line fails in STREAM, the
worker logs the write error and moves to BACKOFF without flushing
anything, and the connection it was streaming on is abandoned: no line
is ever flushed onto that connection in any continuation of the run
(fresh connections get fresh ids). -/
theorem write_failure_backoff_abandons_connection :
    ∀ (s : Sys) (c : Nat) (m : String) (rest : List String),
      s.panicked = false → s.worker = WorkerPhase.stream c → c < s.nextConn →
      (s.chan = ChanState.opened (m :: rest) ∨ s.chan = ChanState.closed (m :: rest)) →
      (s.step (Ev.recv false)).worker = WorkerPhase.backoff ∧
      (s.step (Ev.recv false)).logs = s.logs ++ [LogEvent.writeErr] ∧
      (s.step (Ev.recv false)).sent = s.sent ∧
      ∀ (evs : List Ev) (l : String),
        (c, l) ∈ (Sys.run (s.step (Ev.recv false)) evs).sent → (c, l) ∈ s.sent := by
  intro s c m rest hp hw hlt hc
  have hd : DeadConn (s.step (Ev.recv false)) c := by
    rcases hc with hc | hc <;>
    · rw [step_recv_def s false hp]
      unfold stepRecv
      rw [hw, hc]
      exact ⟨hlt, fun c0 h0 => by simp at h0⟩
  refine ⟨?_, ?_, ?_, ?_⟩
  · rcases hc with hc | hc <;>
    · rw [step_recv_def s false hp]
      simp [stepRecv, hw, hc]
  · rcases hc with hc | hc <;>
    · rw [step_recv_def s false hp]
      simp [stepRecv, hw, hc]
  · rcases hc with hc | hc <;>
    · rw [step_recv_def s false hp]
      simp [stepRecv, hw, hc]
  · intro evs l hmem
    have hstep := run_sent_dead evs (s.step (Ev.recv false)) c hd l hmem
    have hsent : (s.step (Ev.recv false)).sent = s.sent := by
      rcases hc with hc | hc <;>
      · rw [step_recv_def s false hp]
        simp [stepRecv, hw, hc]
    rwa [hsent] at hstep

/-- Witness for write_failure_backoffs_abandons_connection at a concrete
streaming state with a queued line. -/
theorem write_failure_backoff_abandons_connection_witness :
    (sysStreamOpen.step (Ev.recv false)).worker = WorkerPhase.backoff ∧
    (sysStreamOpen.step (Ev.recv false)).logs = [LogEvent.writeErr] ∧
    (sysStreamOpen.step (Ev.recv false)).sent = [] :=
  ⟨(write_failure_backoff_abandons_connection sysStreamOpen 0 "x" [] rfl rfl
      (by decide) (Or.inl rfl)).1,
   (write_failure_backoff_abandons_connection sysStreamOpen 0 "x" [] rfl rfl
      (by decide) (Or.inl rfl)).2.1,
   (write_failure_backoff_abandons_connection sysStreamOpen 0 "x" [] rfl rfl
      (by decide) (Or.inl rfl)).2.2.1⟩

/-- Claim C6: once Shutdown has closed the queue in a reachable run,
every line ever flushed to a connection - also in any continuation -
was successfully enqueued before the close (nothing new is written);
once the closed queue is drained, the very next queue observation in
STREAM or in the backoff drain loop sends the worker to QUIT, and QUIT
is absorbing. -/
theorem shutdown_no_new_lines_and_terminates :
    (∀ (evs0 evs : List Ev) (c : Nat) (l : String),
      (Sys.run initSys evs0).chan.isOpen = false →
      (c, l) ∈ (Sys.run (Sys.run initSys evs0) evs).sent →
      l ∈ (Sys.run initSys evs0).pushed) ∧
    (∀ (s : Sys) (w : Bool), s.panicked = false → s.chan = ChanState.closed [] →
      s.worker.isStream = true → (s.step (Ev.recv w)).worker = WorkerPhase.quit) ∧
    (∀ s : Sys, s.panicked = false → s.chan = ChanState.closed [] →
      s.worker = WorkerPhase.backoff → (s.step Ev.brecv).worker = WorkerPhase.quit) ∧
    (∀ (s : Sys) (evs : List Ev), s.worker = WorkerPhase.quit →
      (Sys.run s evs).worker = WorkerPhase.quit) := by
  refine ⟨?_, ?_, ?_, ?_⟩
  · intro evs0 evs c l hclosed hmem
    have hInv : Inv (Sys.run (Sys.run initSys evs0) evs) :=
      run_inv evs _ (run_inv evs0 initSys initSys_inv)
    have hline : l ∈ sentLines (Sys.run (Sys.run initSys evs0) evs) :=
      List.mem_map_of_mem Prod.snd hmem
    have hpush := (inv_sent_sublist _ hInv).subset hline
    rwa [(run_closed_frozen evs (Sys.run initSys evs0) hclosed).2] at hpush
  · intro s w hp hc hs
    cases hw : s.worker with
    | stream c =>
        rw [step_recv_def s w hp]
        simp [stepRecv, hw, hc]
    | connect => rw [hw] at hs; simp [WorkerPhase.isStream] at hs
    | backoff => rw [hw] at hs; simp [WorkerPhase.isStream] at hs
    | quit => rw [hw] at hs; simp [WorkerPhase.isStream] at hs
  · intro s hp hc hw
    rw [step_brecv_def s hp]
    simp [stepBrecv, hw, hc]
  · intro s evs h
    exact (run_quit_absorbing evs s h).1

/-- Witness for shutdown_no_new_lines_and_terminates: a concrete run
that pushes a line, connects, buffers it, shuts down, then flushes; the
delivered line was pushed before the close; and the termination steps at
concrete closed states. -/
theorem shutdown_no_new_lines_and_terminates_witness :
    "l" ∈ (Sys.run initSys [Ev.push "l", Ev.dial true, Ev.recv true, Ev.shutdown]).pushed ∧
    (sysStreamClosed.step (Ev.recv true)).worker = WorkerPhase.quit ∧
    (sysBackoffClosed.step Ev.brecv).worker = WorkerPhase.quit ∧
    (Sys.run sysQuit [Ev.tick true]).worker = WorkerPhase.quit :=
  ⟨shutdown_no_new_lines_and_terminates.1
      [Ev.push "l", Ev.dial true, Ev.recv true, Ev.shutdown] [Ev.tick true] 0 "l"
      (by decide) (by decide),
   shutdown_no_new_lines_and_terminates.2.1 sysStreamClosed true rfl rfl rfl,
   shutdown_no_new_lines_and_terminates.2.2.1 sysBackoffClosed rfl rfl rfl,
   shutdown_no_new_lines_and_terminates.2.2.2 sysQuit [Ev.tick true] rfl⟩

/-- Claim C9: in every reachable run, the sequence of lines flushed to
the network is an order-preserving subsequence of the sequence of lines
successfully enqueued: drops break contiguity, but survivors are never
reordered. -/
theorem delivery_preserves_enqueue_order :
    ∀ evs : List Ev,
      (sentLines (Sys.run initSys evs)).Sublist (Sys.run initSys evs).pushed :=
  fun evs => inv_sent_sublist _ (run_inv evs initSys initSys_inv)

/-- Claim C10: when the worker observes queue closure in STREAM it jumps
straight to QUIT: the only state change is worker := QUIT and the
metricQueue := nil write, so the write buffer is NOT flushed; the flushed
history never changes again after QUIT; and the flushed history changes
only on a successful ticker-driven flush - so buffered-but-unflushed
bytes at closure time are never sent. -/
theorem stream_close_skips_final_flush :
    (∀ (s : Sys) (c : Nat) (w : Bool), s.panicked = false →
      s.worker = WorkerPhase.stream c → s.chan = ChanState.closed [] →
      s.step (Ev.recv w) = { s with worker := WorkerPhase.quit, chan := ChanState.nilc }) ∧
    (∀ (s : Sys) (e : Ev), (s.step e).sent ≠ s.sent → e = Ev.tick true) ∧
    (∀ (s : Sys) (evs : List Ev), s.worker = WorkerPhase.quit →
      (Sys.run s evs).sent = s.sent) := by
  refine ⟨?_, ?_, ?_⟩
  · intro s c w hp hw hc
    rw [step_recv_def s w hp]
    simp [stepRecv, hw, hc]
  · exact step_sent_ne_tick
  · intro s evs h
    exact (run_quit_absorbing evs s h).2

/-- Witness for stream_close_skips_final_flush: at the concrete closed
streaming state the step to QUIT leaves the buffered line "b" unflushed,
and nothing is ever sent after QUIT. -/
theorem stream_close_skips_final_flush_witness :
    sysStreamClosed.step (Ev.recv true)
      = { sysStreamClosed with worker := WorkerPhase.quit, chan := ChanState.nilc } ∧
    (Sys.run sysQuit [Ev.tick true, Ev.bwait]).sent = [(0, "a")] :=
  ⟨stream_close_skips_final_flush.1 sysStreamClosed 0 true rfl rfl rfl,
   stream_close_skips_final_flush.2.2 sysQuit [Ev.tick true, Ev.bwait] rfl⟩

end Statsite
